import Mathlib

/-!
Verification development for the execution core of a WAM-style Prolog engine
(Skgland/scryer-prolog).  Each section shallowly embeds the Rust routines the
claims depend on; where a routine's defining module is absent from the source
tree (only its callers or tests are present), the definition is modelled from
the specification and its doc comment says so.
-/

namespace Scryer

/-! ### Engine driver fragment

Embeds the routines of `src/prolog/machine/mod.rs`: `Machine::backtrack`
(lines 345-361), the loop-exit tests of `Machine::query_stepper`
(lines 363-380) and `Machine::run_query` (lines 407-437), `Machine::fail`
(lines 439-455) and the result dispatch of `Machine::submit_query`
(lines 457-469) and `Machine::continue_query` (lines 471-491).
-/

namespace Engine

/-- `LocalCodePtr` from `machine_indices` (the enum's three variants as used
throughout `mod.rs`): a top-level (query chunk, offset) pair, an index into
the global code vector, or an index into the term-expander code. -/
inductive LocalCodePtr where
  | topLevel (cn p : Nat)
  | dirEntry (p : Nat)
  | userTermExpansion (p : Nat)
deriving DecidableEq, Repr

instance : Inhabited LocalCodePtr := ⟨.topLevel 0 0⟩

/-- `CodePtr`: a local pointer, or a specially-tagged pointer for an
in-flight built-in call (`BuiltInClause`) or `call/N` (`CallN`); the
non-local payloads are abstracted to numbers, since the embedded routines
only ever match on the `Local` variant. -/
inductive CodePtr where
  | local (l : LocalCodePtr)
  | builtInClause (payload p : Nat)
  | callN (arity p : Nat)
deriving DecidableEq, Repr

/-- A heap / ball-stub cell, abstracted to a number: the embedded driver
routines move cells around but never inspect them. -/
abbrev Cell := Nat

/-- A choice-point frame of the OR-stack.  `or_stack.rs` is not part of the
given sources; per spec §3 a choice point carries the argument registers, E,
CP, B, the next-alternative pointer BP, HB, TR and the saved B0.
`Machine::backtrack` and `Machine::continue_query` read only `bp` and `b0`;
the remaining fields are carried as plain numbers. -/
structure OrFrame where
  args : List Cell
  e : Nat
  cp : LocalCodePtr
  b : Nat
  bp : CodePtr
  hb : Nat
  tr : Nat
  b0 : Nat
deriving DecidableEq, Repr

instance : Inhabited OrFrame :=
  ⟨{ args := [], e := 0, cp := default, b := 0, bp := .local default,
     hb := 0, tr := 0, b0 := 0 }⟩

/-- The fields of `MachineState` (defined in `machine_state.rs`, not among
the given sources) that the embedded `mod.rs` routines read or write: the
choice-point count `b` and saved `b0`, the program counter `p`, the failure
flag `fail`, the ball stub of a thrown-but-uncaught error, the heap, and the
OR-stack itself (`or_stack[i]` indexes it). -/
structure MachineState where
  b : Nat
  b0 : Nat
  p : CodePtr
  fail : Bool
  ball : List Cell
  heap : List Cell
  orStack : List OrFrame
deriving DecidableEq, Repr

/-- `Machine::backtrack` (mod.rs lines 345-361): with at least one choice
point, restore `b0` from the topmost frame and jump to its `bp`, clearing
the failure flag unless the destination is a top-level offset 0; with no
choice point, point the PC at top-level (0, 0). -/
def backtrack (ms : MachineState) : MachineState :=
  if ms.b > 0 then
    let b := ms.b - 1
    let fr := ms.orStack.getD b default
    let fail :=
      match fr.bp with
      | .local (.topLevel _ q) => q == 0
      | _ => false
    { ms with b0 := fr.b0, p := fr.bp, fail := fail }
  else
    { ms with p := .local (.topLevel 0 0) }

/-- The loop-exit test of `Machine::query_stepper` (mod.rs lines 372-378):
after executing an instruction the stepper keeps looping on an in-range
global-code or term-expansion pointer (and on an out-of-range term-expansion
pointer, after setting the failure flag) and on non-local pointers; any
other local pointer breaks the loop. -/
def query_stepper_exits (p : CodePtr) (codeLen _teLen : Nat) : Bool :=
  match p with
  | .local (.dirEntry q) => decide (¬ q < codeLen)
  | .local (.userTermExpansion _) => false
  | .local (.topLevel _ _) => true
  | _ => false

/-- The failure-flag update of the same match (mod.rs line 375): an
out-of-range term-expansion pointer sets `fail`. -/
def query_stepper_sets_fail (p : CodePtr) (teLen0 : Nat) : Bool :=
  match p with
  | .local (.userTermExpansion q) => decide (¬ q < teLen0)
  | _ => false

/-- The continuation test of `Machine::run_query` (mod.rs lines 426-435):
after `query_stepper` returns, the driver loops again only when the PC is a
top-level pointer with positive offset. -/
def run_query_continues (p : CodePtr) : Bool :=
  match p with
  | .local (.topLevel _ q) => decide (q > 0)
  | _ => false

/-- `SessionError` variants returned by the embedded routines.  The Rust
errors carry formatted strings; `queryFailureWithException` carries the
printed cells and the overwrite errors carry the offending predicate key. -/
inductive SessionError where
  | queryFailure
  | queryFailureWithException (payload : List Cell)
  | cannotOverwriteBuiltIn (key : String × Nat)
  | cannotOverwriteImport (key : String × Nat)
  | moduleDoesNotContainExport
deriving DecidableEq, Repr

/-- Whether a session error is one of the two permission errors raised when
loading code would overwrite an existing predicate (§4.12). -/
def SessionError.isPermissionError : SessionError → Bool
  | .cannotOverwriteBuiltIn _ => true
  | .cannotOverwriteImport _ => true
  | _ => false

/-- `EvalSession`: the result of the submit-query / continue-query
interface. -/
inductive EvalSession where
  | initialQuerySuccess
  | subsequentQuerySuccess
  | sessionError (e : SessionError)
deriving DecidableEq, Repr

/-- Modelled from the spec: `MachineState::copy_and_align_ball_to_heap`
(`machine_state_impl.rs`, not among the given sources).  Per §7 the ball
stub is a protected region disjoint from the heap holding the thrown term;
`Machine::fail` copies it back onto the heap top, so the model appends the
stub's cells to the heap. -/
def copy_and_align_ball_to_heap (ms : MachineState) : MachineState :=
  { ms with heap := ms.heap ++ ms.ball }

/-- Modelled from the spec: `MachineState::print_exception` (`heap_print`,
not among the given sources) formats the term rooted at heap address `h`;
the model returns the cells from `h` as the formatted payload. -/
def print_exception (ms : MachineState) (h : Nat) : List Cell :=
  ms.heap.drop h

/-- `Machine::fail` (mod.rs lines 439-455): with a non-empty ball stub,
copy the ball back onto the heap, print the exception rooted at the old
heap top and return a failure-with-exception; otherwise return a plain
query failure. -/
def fail_result (ms : MachineState) : EvalSession :=
  if ms.ball.length > 0 then
    let h := ms.heap.length
    let ms1 := copy_and_align_ball_to_heap ms
    .sessionError (.queryFailureWithException (print_exception ms1 h))
  else
    .sessionError .queryFailure

/-- The result dispatch of `Machine::submit_query` (mod.rs lines 457-469)
after `run_query` has returned: a set failure flag yields `Machine::fail`'s
result, otherwise an initial-query success. -/
def submit_query_result (ms : MachineState) : EvalSession :=
  if ms.fail then fail_result ms else .initialQuerySuccess

/-- The result dispatch of `Machine::continue_query` (mod.rs lines 481-487)
after `run_query` has returned. -/
def continue_query_result (ms : MachineState) : EvalSession :=
  if ms.fail then fail_result ms else .subsequentQuerySuccess

/-- The entry of `Machine::continue_query` (mod.rs lines 471-480, 488-490):
with an empty OR-stack, report `QueryFailure` at once; otherwise reload the
PC from the topmost choice point's `bp`, reporting `QueryFailure` if that
alternative is the exhausted top-level offset 0. -/
def continue_query_entry (ms : MachineState) : Except EvalSession MachineState :=
  if ¬ ms.b = 0 then
    let fr := ms.orStack.getD (ms.b - 1) default
    let ms1 := { ms with p := fr.bp }
    match fr.bp with
    | .local (.topLevel _ 0) => .error (.sessionError .queryFailure)
    | _ => .ok ms1
  else
    .error (.sessionError .queryFailure)

end Engine

/-! ### AND-stack (environment frames)

Embeds `src/prolog/machine/and_stack.rs` in full: `Frame::new`
(lines 17-25), `AndStack::push` (lines 45-48), `AndStack::resize`
(lines 58-68) and the 1-indexed `Index` implementation for `Frame`
(lines 85-91).
-/

namespace AndStack

/-- The `Addr` variants relevant to the AND-stack (`machine_indices.rs` is
not among the given sources; per spec §3 a tagged cell is a heap reference,
a stack-slot reference, a constant, etc.).  Only `stackCell` is produced by
the embedded routines. -/
inductive Addr where
  | heapCell (h : Nat)
  | stackCell (fr i : Nat)
  | con (c : Nat)
deriving DecidableEq, Repr

/-- `Frame` (and_stack.rs lines 7-14): an environment frame with its global
index, previous-environment link `e`, continuation pointer `cp`, interrupt
continuation, and the permanent-variable cells `perms`. -/
structure Frame where
  global_index : Nat
  e : Nat
  cp : Engine.LocalCodePtr
  interrupt_cp : Engine.LocalCodePtr
  perms : List Addr
deriving DecidableEq, Repr

/-- `Frame::new` (and_stack.rs lines 17-25): the `n` permanent cells are
initialized to `StackCell(fr, i)` for `i` in `1..n+1`, i.e. each cell is a
self-referential stack address. -/
def Frame.new (global_index fr e : Nat) (cp : Engine.LocalCodePtr) (n : Nat) :
    Frame :=
  { global_index
    e
    cp
    interrupt_cp := default
    perms := (List.range n).map (fun i => Addr.stackCell fr (i + 1)) }

/-- `impl Index<usize> for Frame` (and_stack.rs lines 85-91): 1-indexed
access, `frame[i]` reads `perms[i - 1]` (out of range panics in Rust, `none`
here). -/
def Frame.get1 (f : Frame) (i : Nat) : Option Addr :=
  f.perms.get? (i - 1)

/-- The AND-stack itself (and_stack.rs line 33): a vector of frames. -/
structure Stack where
  frames : List Frame
deriving DecidableEq, Repr

/-- `AndStack::push` (and_stack.rs lines 45-48): the new frame's `fr` index
is the stack length before the push. -/
def Stack.push (s : Stack) (global_index e : Nat) (cp : Engine.LocalCodePtr)
    (n : Nat) : Stack :=
  { frames := s.frames ++ [Frame.new global_index s.frames.length e cp n] }

/-- The cell-extension step of `AndStack::resize` (and_stack.rs lines
58-68): when the frame at index `fr` has fewer than `n` cells, push
`StackCell(fr, i)` for each `i` in `len..n` — note the loop variable `i` is
the 0-based position of the new cell. -/
def Frame.resizePerms (f : Frame) (fr n : Nat) : Frame :=
  let len := f.perms.length
  if len < n then
    { f with
      perms := f.perms ++ (List.range' len (n - len)).map
        (fun i => Addr.stackCell fr i) }
  else
    f

/-- `AndStack::resize` (and_stack.rs lines 58-68) at the stack level:
extend the frame stored at index `fr`. -/
def Stack.resize (s : Stack) (fr n : Nat) : Stack :=
  match s.frames.get? fr with
  | some f => { frames := s.frames.set fr (f.resizePerms fr n) }
  | none => s

end AndStack

/-! ### Compiler front end: cut handling in clause bodies

Embeds the body-preprocessing of `src/prolog/machine/toplevel.rs`:
`mark_cut_variables_as` (lines 329-338), `mark_cut_variable` /
`mark_cut_variables` (lines 340-362), `check_for_internal_if_then`
(lines 367-400), `RelationWorker::compute_head` (lines 513-526),
`fabricate_rule_body` (lines 528-536), `fabricate_rule` (lines 541-548),
`fabricate_disjunct` (lines 550-571), `fabricate_if_then` (lines 573-598)
and `to_query_term` (lines 600-658).
-/

namespace Toplevel

/-- The reader's `Term` (from `prolog_parser::ast`, not among the given
sources) restricted to the variants the embedded routines construct and
match on: atomic constants, integer constants (standing in for the other
non-atom constants), variables, and compound terms. -/
inductive Term where
  | atom (s : String)
  | num (n : Int)
  | var (s : String)
  | clause (name : String) (args : List Term)

instance : Inhabited Term := ⟨.atom ""⟩

mutual

def Term.decEq : (a b : Term) → Decidable (a = b)
  | .atom s, .atom t =>
    if h : s = t then .isTrue (congrArg Term.atom h)
    else .isFalse (fun hh => h (Term.atom.inj hh))
  | .atom _, .num _ => .isFalse (fun h => Term.noConfusion h)
  | .atom _, .var _ => .isFalse (fun h => Term.noConfusion h)
  | .atom _, .clause _ _ => .isFalse (fun h => Term.noConfusion h)
  | .num _, .atom _ => .isFalse (fun h => Term.noConfusion h)
  | .num m, .num n =>
    if h : m = n then .isTrue (congrArg Term.num h)
    else .isFalse (fun hh => h (Term.num.inj hh))
  | .num _, .var _ => .isFalse (fun h => Term.noConfusion h)
  | .num _, .clause _ _ => .isFalse (fun h => Term.noConfusion h)
  | .var _, .atom _ => .isFalse (fun h => Term.noConfusion h)
  | .var _, .num _ => .isFalse (fun h => Term.noConfusion h)
  | .var s, .var t =>
    if h : s = t then .isTrue (congrArg Term.var h)
    else .isFalse (fun hh => h (Term.var.inj hh))
  | .var _, .clause _ _ => .isFalse (fun h => Term.noConfusion h)
  | .clause _ _, .atom _ => .isFalse (fun h => Term.noConfusion h)
  | .clause _ _, .num _ => .isFalse (fun h => Term.noConfusion h)
  | .clause _ _, .var _ => .isFalse (fun h => Term.noConfusion h)
  | .clause n1 a1, .clause n2 a2 =>
    if hn : n1 = n2 then
      match Term.decEqList a1 a2 with
      | .isTrue ha => .isTrue (by rw [hn, ha])
      | .isFalse ha => .isFalse (fun hh => ha (Term.clause.inj hh).2)
    else .isFalse (fun hh => hn (Term.clause.inj hh).1)

def Term.decEqList : (a b : List Term) → Decidable (a = b)
  | [], [] => .isTrue rfl
  | [], _ :: _ => .isFalse (fun h => List.noConfusion h)
  | _ :: _, [] => .isFalse (fun h => List.noConfusion h)
  | x :: xs, y :: ys =>
    match Term.decEq x y, Term.decEqList xs ys with
    | .isTrue h1, .isTrue h2 => .isTrue (by rw [h1, h2])
    | .isFalse h1, _ => .isFalse (fun h => h1 (List.cons.inj h).1)
    | _, .isFalse h2 => .isFalse (fun h => h2 (List.cons.inj h).2)

end

instance : DecidableEq Term := Term.decEq

/-- Modelled from the spec: `unfold_by_str` (`prolog::iterators`, not among
the given sources) splits the right-nested spine of binary `s`-clauses into
the list of its members, mirroring §4.3/§4.6's reading of a body as a
sequence of goals; a non-`s` term is the one-element sequence. -/
def unfold_by_str (t : Term) (s : String) : List Term :=
  match t with
  | .clause name args =>
    match args with
    | [t1, t2] =>
      if name = s then t1 :: unfold_by_str t2 s else [.clause name args]
    | _ => [.clause name args]
  | _ => [t]

/-- Modelled from the spec: `fold_by_str` (`prolog::iterators`, not among
the given sources), the inverse of `unfold_by_str`: folds a list of terms
and a final term back into a right-nested binary `s`-spine. -/
def fold_by_str (ts : List Term) (t : Term) (s : String) : Term :=
  ts.foldr (fun x acc => Term.clause s [x, acc]) t

/-- `mark_cut_variables_as` (toplevel.rs lines 329-338): rename every
constant atom `!` among the terms to the given name. -/
def mark_cut_variables_as (terms : List Term) (name : String) : List Term :=
  terms.map fun t =>
    match t with
    | .atom s => if s = "!" then .atom name else t
    | _ => t

/-- `mark_cut_variable` (toplevel.rs lines 340-352): turn a constant atom
`!` into the variable named `!`, reporting whether one was found. -/
def mark_cut_variable (t : Term) : Term × Bool :=
  match t with
  | .atom s => if s = "!" then (.var "!", true) else (t, false)
  | _ => (t, false)

/-- `mark_cut_variables` (toplevel.rs lines 354-362): mark every cut among
the terms, reporting whether any was found. -/
def mark_cut_variables (ts : List Term) : List Term × Bool :=
  let marked := ts.map mark_cut_variable
  (marked.map Prod.fst, marked.any Prod.snd)

/-- `check_for_internal_if_then` (toplevel.rs lines 367-400): when the
(single-term) disjunct is a `->`-clause, flatten it into the sequence
`antecedent-conjuncts ++ [blocked_!] ++ consequent-conjuncts`, refolded by
commas. -/
def check_for_internal_if_then (terms : List Term) : List Term :=
  match terms with
  | [.clause name [prec, conq]] =>
    if name = "->" then
      let seq := unfold_by_str prec "," ++ [Term.atom "blocked_!"] ++
        unfold_by_str conq ","
      -- `seq` is non-empty; the source pops its last element and folds the
      -- rest onto it.
      [fold_by_str seq.dropLast (seq.getLastD default) ","]
    else terms
  | _ => terms

/-- The variable names of a term in post-order, as visited by
`post_order_iter` (toplevel.rs lines 516-520). -/
def postOrderVars : Term → List String
  | .var s => [s]
  | .clause _ args => varsOfList args
  | _ => []
where
  varsOfList : List Term → List String
  | [] => []
  | t :: ts => postOrderVars t ++ varsOfList ts

/-- First-occurrence insertion, the `IndexSet::insert` discipline used by
`compute_head`. -/
def insertUnique (xs : List String) (x : String) : List String :=
  if x ∈ xs then xs else xs ++ [x]

/-- `RelationWorker::compute_head` (toplevel.rs lines 513-526): the
first-occurrence set of the body's variables in post-order, with the cut
variable `!` added, each turned into a `Term::Var`. -/
def compute_head (t : Term) : List Term :=
  (insertUnique ((postOrderVars t).foldl insertUnique []) "!").map .var

/-- `RelationWorker::fabricate_rule_body` (toplevel.rs lines 528-536):
wrap the body under a fabricated head `''(vars...)`, as a `:-`-clause. -/
def fabricate_rule_body (vars : List Term) (body : Term) : Term :=
  .clause ":-" [.clause "" vars, body]

/-- `RelationWorker::fabricate_rule` (toplevel.rs lines 541-548). -/
def fabricate_rule (body : Term) : List Term × List Term :=
  let vars := compute_head body
  (vars, [fabricate_rule_body vars body])

/-- `RelationWorker::fabricate_disjunct` (toplevel.rs lines 550-571): split
the body at `;`, and in each disjunct mark the cuts as cut variables, expand
an internal `->`, and refold the conjuncts; each processed disjunct becomes
one fabricated rule under the shared head. -/
def fabricate_disjunct (body : Term) : List Term × List Term :=
  let vars := compute_head body
  let clauses := (unfold_by_str body ";").map fun term =>
    let subterms := (mark_cut_variables (unfold_by_str term ",")).1
    let subterms := check_for_internal_if_then subterms
    fold_by_str subterms.dropLast (subterms.getLastD default) ","
  (vars, clauses.map (fabricate_rule_body vars))

/-- The goal sequence built by `RelationWorker::fabricate_if_then`
(toplevel.rs lines 574-585): the antecedent's conjuncts with a commit cut
appended and every `!` among them (the appended one included) renamed to
`blocked_!`, followed by the consequent's conjuncts with their cuts marked
as cut variables. -/
def fabricate_if_then_seq (prec conq : Term) : List Term :=
  mark_cut_variables_as (unfold_by_str prec "," ++ [Term.atom "!"])
      "blocked_!" ++
    (mark_cut_variables (unfold_by_str conq ",")).1

/-- `RelationWorker::fabricate_if_then` (toplevel.rs lines 573-598): pop
the last two terms of the sequence to seed the comma-fold of the rest, and
fabricate a rule from the folded body. -/
def fabricate_if_then (prec conq : Term) : List Term × List Term :=
  match (fabricate_if_then_seq prec conq).reverse with
  | back :: front :: rest_rev =>
    fabricate_rule
      (fold_by_str rest_rev.reverse (.clause "," [front, back]) ",")
  | _ =>  -- unreachable: the sequence has at least two items
    fabricate_rule ((fabricate_if_then_seq prec conq).getLastD default)

/-- `ParserError` variants raised by the embedded front end. -/
inductive ParserError where
  | inadmissibleQueryTerm
deriving DecidableEq

/-- `QueryTerm` (from `prolog::forms`, not among the given sources),
restricted to the variants `to_query_term` produces; clause types are
abstracted to the predicate name. -/
inductive QueryTerm where
  | blockedCut
  | unblockedCut
  | jump (stub : List Term)
  | getLevelAndUnify (v : String)
  | partialString (args : List Term)
  | clause (name : String) (args : List Term)
  | callN (t : Term)
deriving DecidableEq

/-- `RelationWorker::to_query_term` (toplevel.rs lines 600-658).  The
second component records the clause packets pushed onto the worker's queue
by the `;` and `->` branches. -/
def to_query_term (t : Term) : Except ParserError (QueryTerm × List (List Term)) :=
  match t with
  | .atom name =>
    if name = "!" ∨ name = "blocked_!" then .ok (.blockedCut, [])
    else .ok (.clause name [], [])
  | .var v =>
    if v = "!" then .ok (.unblockedCut, [])
    else .ok (.callN (.var v), [])
  | .clause name args =>
    match name, args with
    | ";", [t1, t2] =>
      let (stub, clauses) := fabricate_disjunct (.clause ";" [t1, t2])
      .ok (.jump stub, [clauses])
    | "->", [prec, conq] =>
      let (stub, clauses) := fabricate_if_then prec conq
      .ok (.jump stub, [clauses])
    | "$get_level", [arg] =>
      match arg with
      | .var v => .ok (.getLevelAndUnify v, [])
      | _ => .error .inadmissibleQueryTerm
    | "partial_string", [a, b] => .ok (.partialString [a, b], [])
    | _, _ => .ok (.clause name args, [])
  | .num _ => .error .inadmissibleQueryTerm

mutual

/-- Whether the atom `nm` occurs anywhere in a term. -/
def containsAtom (nm : String) : Term → Bool
  | .atom s => s == nm
  | .clause _ args => containsAtomList nm args
  | _ => false

/-- Whether the atom `nm` occurs in any of the terms. -/
def containsAtomList (nm : String) : List Term → Bool
  | [] => false
  | t :: ts => containsAtom nm t || containsAtomList nm ts

end

mutual

/-- Whether the variable `nm` occurs anywhere in a term. -/
def containsVar (nm : String) : Term → Bool
  | .var s => s == nm
  | .clause _ args => containsVarList nm args
  | _ => false

/-- Whether the variable `nm` occurs in any of the terms. -/
def containsVarList (nm : String) : List Term → Bool
  | [] => false
  | t :: ts => containsVar nm t || containsVarList nm ts

end

end Toplevel

/-! ### Code directory and predicate keys

Shared data model for `Machine::add_batched_code` (mod.rs) and the module
system (modules.rs).  `machine_indices.rs` is not among the given sources:
a `CodeIndex` is a shared cell holding an index pointer (possibly
`Undefined`) and the owning module's name; the embedding carries the cell's
contents by value, which is what the embedded routines observe.
-/

namespace Indices

/-- A predicate key `(name, arity)`. -/
abbrev Key := String × Nat

/-- The observable contents of a `CodeIndex` cell: whether the index
pointer is `IndexPtr::Undefined`, the code offset otherwise, and the owning
module name. -/
structure CodeIdx where
  undefined : Bool
  ptr : Nat
  module_name : String
deriving DecidableEq, Repr

/-- A code directory, keyed by predicate key.  The Rust `CodeDir` is a hash
map with unique keys; the embedding is an association list looked up at the
first match. -/
abbrev CodeDir := List (Key × CodeIdx)

/-- Map lookup. -/
def lookup (dir : CodeDir) (k : Key) : Option CodeIdx :=
  (dir.find? (fun p => p.1 = k)).map (fun p => p.2)

/-- Map insert-or-update: `set_code_index!` on an existing entry, plain
insertion otherwise (keys being unique, updating every matching entry
coincides with updating the one). -/
def upsert (dir : CodeDir) (k : Key) (idx : CodeIdx) : CodeDir :=
  if (lookup dir k).isSome then
    dir.map (fun p => if p.1 = k then (p.1, idx) else p)
  else
    dir ++ [(k, idx)]

end Indices

/-! ### Loading batched code

Embeds `Machine::add_batched_code` (src/prolog/machine/mod.rs lines
169-215): a checking pass over the batch's code directory that may reject
it, followed — only if no entry was rejected — by the pass that merges the
batch into the master code directory and appends the batch's code.
-/

namespace Batch

open Indices Engine

/-- The fields of `Machine` that `add_batched_code` reads or writes: the
global code vector (instructions abstracted to numbers) and the master code
directory. -/
structure MachineFrag where
  code : List Nat
  code_dir : CodeDir
deriving DecidableEq, Repr

/-- The checking pass of `add_batched_code` (mod.rs lines 171-196).
`is_builtin k` stands for `ClauseType::from(k.0, k.1, None)` returning
neither `Named` nor `Op`; modelled from the spec (`ClauseType` lives in
`prolog::instructions`, not among the given sources; per §4.12 the built-in
predicates are fixed clause types that user code must not overwrite).  An
entry for a built-in key is rejected outright; an entry that would redefine
an already-defined predicate owned by a module other than `user` and other
than the entry's own module is rejected as an import overwrite. -/
def check_batch (is_builtin : Key → Bool) (master : CodeDir) :
    CodeDir → Option SessionError
  | [] => none
  | (k, idx) :: rest =>
    if is_builtin k then some (.cannotOverwriteBuiltIn k)
    else
      match lookup master k with
      | some existing =>
        if existing.undefined = false ∧ idx.undefined = false then
          if existing.module_name = "user" then
            check_batch is_builtin master rest
          else if existing.module_name ≠ idx.module_name then
            some (.cannotOverwriteImport k)
          else
            check_batch is_builtin master rest
        else
          check_batch is_builtin master rest
      | none => check_batch is_builtin master rest

/-- The merging pass of `add_batched_code` (mod.rs lines 198-211): each
batch entry overwrites the master entry of the same key via
`set_code_index!`, or is inserted fresh. -/
def merge_batch (master : CodeDir) : CodeDir → CodeDir
  | [] => master
  | (k, idx) :: rest => merge_batch (upsert master k idx) rest

/-- `Machine::add_batched_code` (mod.rs lines 169-215): returns the machine
after the call together with the error, if any; an error is returned before
any mutation, so the machine is returned unchanged in that case. -/
def add_batched_code (is_builtin : Key → Bool) (m : MachineFrag)
    (batch_code : List Nat) (batch_dir : CodeDir) :
    MachineFrag × Option SessionError :=
  match check_batch is_builtin m.code_dir batch_dir with
  | some e => (m, some e)
  | none =>
    ({ code := m.code ++ batch_code,
       code_dir := merge_batch m.code_dir batch_dir }, none)

end Batch

/-! ### Module imports

Embeds `src/prolog/machine/modules.rs`: `SubModuleUser::import_decl`
(lines 136-167) and the free function `use_qualified_module`
(lines 179-202), instantiated at the `Module` implementation of
`SubModuleUser` (lines 217-236), whose `insert_dir_entry` is a plain map
insertion.
-/

namespace Modules

open Indices Engine

/-- Operator fixity (`prolog_parser::ast::Fixity`). -/
inductive Fixity where
  | pre
  | post
  | inf
deriving DecidableEq, Repr

/-- An operator directory: key `(name, fixity)`, payload abstracted (an
importing module clones it wholesale). -/
abbrev OpDir := List ((String × Fixity) × Nat)

/-- Operator-directory lookup. -/
def opLookup (dir : OpDir) (k : String × Fixity) : Option Nat :=
  (dir.find? (fun p => p.1 = k)).map (fun p => p.2)

/-- Operator-directory insert-or-update. -/
def opUpsert (dir : OpDir) (k : String × Fixity) (v : Nat) : OpDir :=
  if (opLookup dir k).isSome then
    dir.map (fun p => if p.1 = k then (p.1, v) else p)
  else
    dir ++ [(k, v)]

/-- The parts of a `Module` read by the embedded import routines: its
declared export list (`module_decl.exports`), its code directory and its
operator directory. -/
structure Module where
  name : String
  exports : List Key
  code_dir : CodeDir
  op_dir : OpDir
deriving DecidableEq, Repr

/-- The importing side's directories (a `SubModuleUser`); `insert_dir_entry`
and `op_dir` insertion behave as in the `Module` implementation. -/
structure UserStore where
  code_dir : CodeDir
  op_dir : OpDir
deriving DecidableEq, Repr

/-- Modelled from the spec: `ClauseName::defrock_brackets`
(`prolog_parser`, not among the given sources) strips one surrounding
`(` `)` bracket pair from an atom's name, if present; implemented over the
character list. -/
def defrock_brackets (s : String) : String :=
  if s.data.head? = some '(' ∧ s.data.getLast? = some ')' then
    String.mk ((s.data.drop 1).dropLast)
  else s

/-- One `insert_op_dir` closure application from `import_decl`
(modules.rs lines 141-146): copy the submodule's operator entry at the
given fixity, recording that one was found. -/
def insert_op_dir (sub : Module) (name : String) (st : UserStore × Bool)
    (fix : Fixity) : UserStore × Bool :=
  match opLookup sub.op_dir (name, fix) with
  | some od =>
    ({ st.1 with op_dir := opUpsert st.1.op_dir (name, fix) od }, true)
  | none => st

/-- `SubModuleUser::import_decl` (modules.rs lines 136-167): defrock the
name; copy matching operator entries (prefix and postfix at arity 1, infix
at arity 2); then copy the submodule's code-directory entry if it has one,
succeeding in that case, and otherwise succeed only if an operator was
found.  (The atom-table interning of the name is not observable here and is
omitted.) -/
def import_decl (user : UserStore) (name : String) (arity : Nat)
    (sub : Module) : UserStore × Bool :=
  let name := defrock_brackets name
  let st0 := (user, false)
  let st1 :=
    if arity = 1 then
      insert_op_dir sub name (insert_op_dir sub name st0 .pre) .post
    else if arity = 2 then
      insert_op_dir sub name st0 .inf
    else st0
  match lookup sub.code_dir (name, arity) with
  | some cd =>
    ({ st1.1 with code_dir := upsert st1.1.code_dir (name, arity) cd }, true)
  | none => st1

/-- `use_qualified_module` (modules.rs lines 179-202): walk the requested
keys; a key absent from the submodule's declared export list is skipped;
otherwise `import_decl` runs, and its failure aborts the walk with
`ModuleDoesNotContainExport`. -/
def use_qualified_module (user : UserStore) (sub : Module) :
    List Key → Except SessionError UserStore
  | [] => .ok user
  | k :: rest =>
    if k ∈ sub.exports then
      match import_decl user k.1 k.2 sub with
      | (user1, true) => use_qualified_module user1 sub rest
      | (_, false) => .error .moduleDoesNotContainExport
    else
      use_qualified_module user sub rest

/-- The cumulative import of a list of keys, ignoring failures: the state
reached by folding `import_decl` (used to characterize what a successful
`use_qualified_module` imports). -/
def import_all (user : UserStore) (sub : Module) (ks : List Key) : UserStore :=
  ks.foldl (fun u k => (import_decl u k.1 k.2 sub).1) user

end Modules

/-! ### Arithmetic evaluation

The arithmetic evaluator (`prolog::arithmetic` together with the `is`
dispatch in `machine_state_impl.rs`) is not among the given sources; only
its tests are (`tests.rs`, `test_queries_on_arithmetic`).  The definitions
below are therefore modelled from spec §4.7.
-/

namespace Arith

/-- Modelled from the spec: the numeric tower of §4.7 — arbitrary-precision
integers, rationals, floats.  Floats are carried as exact rationals: the
claims checked here concern zero-divisor detection and integer `mod`/`rem`,
for which float rounding is irrelevant. -/
inductive Number where
  | int (n : ℤ)
  | rat (q : ℚ)
  | flt (q : ℚ)
deriving DecidableEq, Repr

/-- Whether a number is (numerically) zero. -/
def Number.isZero : Number → Bool
  | .int n => n = 0
  | .rat q => q = 0
  | .flt q => q = 0

/-- Modelled from the spec: the evaluation errors of §4.7/§4.11 that the
modelled operations raise.  A raised `e : EvalError` stands for the thrown
ball `error(evaluation_error(e), _)`. -/
inductive EvalError where
  | zeroDivisor
  | undefinedEval
  | typeErrorEvaluable
deriving DecidableEq, Repr

/-- A number as a rational, for promotion to `/`'s result types. -/
def Number.toRat : Number → ℚ
  | .int n => (n : ℚ)
  | .rat q => q
  | .flt q => q

/-- Modelled from the spec: `/` (§4.7).  Division by zero raises
`evaluation_error(zero_divisor)`; otherwise integers promote to float,
a rational paired with an integer or rational stays rational, and a float
operand makes the result float. -/
def numDiv (a b : Number) : Except EvalError Number :=
  if b.isZero then .error .zeroDivisor
  else
    match a, b with
    | .int m, .int n => .ok (.flt ((m : ℚ) / (n : ℚ)))
    | .flt q, y => .ok (.flt (q / y.toRat))
    | x, .flt q => .ok (.flt (x.toRat / q))
    | x, y => .ok (.rat (x.toRat / y.toRat))

/-- Modelled from the spec: `//` (§4.7), truncating integer division of two
integers; a zero divisor raises `evaluation_error(zero_divisor)` and a
non-integer operand is a type error. -/
def numIDiv (a b : Number) : Except EvalError Number :=
  match a, b with
  | .int m, .int n =>
    if n = 0 then .error .zeroDivisor else .ok (.int (Int.tdiv m n))
  | _, _ => .error .typeErrorEvaluable

/-- Modelled from the spec: `mod` (§4.7) follows the sign of the divisor,
i.e. is the floored remainder, on integers. -/
def numMod (a b : Number) : Except EvalError Number :=
  match a, b with
  | .int m, .int n =>
    if n = 0 then .error .zeroDivisor else .ok (.int (Int.fmod m n))
  | _, _ => .error .typeErrorEvaluable

/-- Modelled from the spec: `rem` (§4.7) follows the sign of the dividend,
i.e. is the truncated remainder, on integers. -/
def numRem (a b : Number) : Except EvalError Number :=
  match a, b with
  | .int m, .int n =>
    if n = 0 then .error .zeroDivisor else .ok (.int (Int.tmod m n))
  | _, _ => .error .typeErrorEvaluable

/-- Modelled from the spec: the arithmetic expression trees of §4.3/§4.7,
restricted to the operations the claims concern. -/
inductive ArithExpr where
  | num (n : Number)
  | div (e1 e2 : ArithExpr)
  | idiv (e1 e2 : ArithExpr)
  | emod (e1 e2 : ArithExpr)
  | erem (e1 e2 : ArithExpr)
deriving DecidableEq, Repr

/-- Modelled from the spec: left-to-right evaluation of an arithmetic tree
(§4.3, arithmetic instructions), errors propagating outward as the thrown
ball does. -/
def eval : ArithExpr → Except EvalError Number
  | .num n => .ok n
  | .div e1 e2 => do numDiv (← eval e1) (← eval e2)
  | .idiv e1 e2 => do numIDiv (← eval e1) (← eval e2)
  | .emod e1 e2 => do numMod (← eval e1) (← eval e2)
  | .erem e1 e2 => do numRem (← eval e1) (← eval e2)

end Arith

/-! ### setup_call_cleanup

`setup_call_cleanup/3` is implemented in the engine's Prolog library and
built-in layer (`lib/builtins.pl` and the `non_iso` library, loaded by
`tests.rs` but not among the given sources).  The model below is built from
spec §4.8's contract; `tests.rs` lines 2702-2796
(`test_queries_on_setup_call_cleanup`) corroborate its concrete cases.
-/

namespace Scc

/-- Modelled from the spec: the ways the call goal G can come out — success
leaving no choice point (deterministic) or some, failure, or an exception
carrying a ball. -/
inductive GoalOutcome where
  | succeeds (det : Bool)
  | fails
  | throws (ball : String)
deriving DecidableEq, Repr

/-- Modelled from the spec: the ways the cleanup goal C can come out. -/
inductive CleanupOutcome where
  | succeeds
  | fails
  | throws (ball : String)
deriving DecidableEq, Repr

/-- The observable outcome of a whole call. -/
inductive FinalOutcome where
  | solution
  | failure
  | exception (ball : String)
deriving DecidableEq, Repr

/-- What a `setup_call_cleanup(S, G, C)` call is observed to do: how many
times the cleanup ran, and the final outcome. -/
structure SccResult where
  cleanup_runs : Nat
  outcome : FinalOutcome
deriving DecidableEq, Repr

/-- Modelled from the spec: `setup_call_cleanup(S, G, C)` after a
successful setup (§4.8): C runs exactly once whether G succeeds
deterministically, fails or throws (on a nondeterministic success it runs
once at the eventual commit); a cleanup exception surfaces after a success
or a failure of G, but after an exception of G the goal's exception wins
and the cleanup's is swallowed. -/
def setup_call_cleanup (g : GoalOutcome) (c : CleanupOutcome) : SccResult :=
  match g with
  | .succeeds _ =>
    { cleanup_runs := 1
      outcome :=
        match c with
        | .throws ballc => .exception ballc
        | _ => .solution }
  | .fails =>
    { cleanup_runs := 1
      outcome :=
        match c with
        | .throws ballc => .exception ballc
        | _ => .failure }
  | .throws ballg =>
    { cleanup_runs := 1, outcome := .exception ballg }

/-- Modelled from the spec: `catch(_, Pat, true)` with an unbound catcher
variable `Pat` (§4.8): an exception outcome is caught, the ball unifying
with `Pat`; other outcomes pass through with `Pat` unbound. -/
def catch_with_var (r : FinalOutcome) : FinalOutcome × Option String :=
  match r with
  | .exception b => (.solution, some b)
  | r => (r, none)

end Scc

/-! ### findall

`findall/3` is implemented in `lib/builtins.pl` (not among the given
sources); `tests.rs` lines 2258-2284 exercise it.  The model below is built
from spec §4.8: a small term/goal language with a substitution-based
solver, over which `findall` collects the template instances of every
solution and unifies the output argument with their proper list, leaving
the caller's substitution otherwise untouched.
-/

namespace Solve

open Toplevel

/-- A substitution: bindings from variable names to terms. -/
abbrev Subst := List (String × Term)

/-- Binding lookup. -/
def slookup (σ : Subst) (v : String) : Option Term :=
  (σ.find? (fun p => p.1 = v)).map (fun p => p.2)

/-- Chase a variable to its representative, with fuel (the substitutions the
solver builds are acyclic; the fuel only serves termination). -/
def walk (fuel : Nat) (σ : Subst) (t : Term) : Term :=
  match fuel with
  | 0 => t
  | fuel + 1 =>
    match t with
    | .var v =>
      match slookup σ v with
      | some t1 => walk fuel σ t1
      | none => t
    | t => t

/-- Modelled from the spec: Robinson unification (§4.2) on the reader-level
terms, with fuel for termination; `none` is failure.  Argument lists are
unified left to right, threading the substitution. -/
def unify : Nat → Term → Term → Subst → Option Subst
  | 0, _, _, _ => none
  | fuel + 1, s1, s2, σ =>
    let t1 := walk fuel σ s1
    let t2 := walk fuel σ s2
    match t1, t2 with
    | .var v1, .var v2 => if v1 = v2 then some σ else some ((v1, t2) :: σ)
    | .var v1, t2 => some ((v1, t2) :: σ)
    | t1, .var v2 => some ((v2, t1) :: σ)
    | .atom a, .atom b => if a = b then some σ else none
    | .num a, .num b => if a = b then some σ else none
    | .clause f1 args1, .clause f2 args2 =>
      if f1 = f2 ∧ args1.length = args2.length then
        (args1.zip args2).foldl
          (fun acc p => acc.bind (fun σ1 => unify fuel p.1 p.2 σ1))
          (some σ)
      else none
    | _, _ => none

/-- Fully apply a substitution to a term, with fuel. -/
def resolve (fuel : Nat) (σ : Subst) (t : Term) : Term :=
  match fuel with
  | 0 => t
  | fuel + 1 =>
    match walk fuel σ t with
    | .clause f args => .clause f (args.map (resolve fuel σ))
    | t => t

/-- Modelled from the spec: the goal fragment the findall claims run —
true, false/fail, unification, conjunction and disjunction (§4.8). -/
inductive Goal where
  | tt
  | ff
  | eq (t1 t2 : Term)
  | conj (g1 g2 : Goal)
  | disj (g1 g2 : Goal)
deriving DecidableEq

/-- The default fuel for the concrete runs below. -/
def defaultFuel : Nat := 64

/-- Modelled from the spec: the solution sequence of a goal under Prolog's
left-to-right, depth-first search (§2, §4.5): each element is the
substitution at one success. -/
def solve : Goal → Subst → List Subst
  | .tt, σ => [σ]
  | .ff, _ => []
  | .eq t1 t2, σ =>
    match unify defaultFuel t1 t2 σ with
    | some σ1 => [σ1]
    | none => []
  | .conj g1 g2, σ => (solve g1 σ).flatMap (solve g2)
  | .disj g1 g2, σ => solve g1 σ ++ solve g2 σ

/-- The collected template copies: Template instantiated by each solution of
Goal, in order.  (The renaming of variables left free in a copy is not
modelled; the instances checked here are ground.) -/
def findall_solutions (tmpl : Term) (g : Goal) (σ : Subst) : List Term :=
  (solve g σ).map (fun σ1 => resolve defaultFuel σ1 tmpl)

/-- A Prolog proper list of the given terms. -/
def toPrologList (ts : List Term) : Term :=
  ts.foldr (fun h t => .clause "." [h, t]) (.atom "[]")

/-- Modelled from the spec: `findall(Template, Goal, List)` (§4.8): run
Goal to exhaustion, collect a copy of Template at each success, and unify
`List` with the proper list of the copies **under the caller's
substitution** — the bindings Goal made are discarded. -/
def findall (tmpl : Term) (g : Goal) (out : Term) (σ : Subst) : Option Subst :=
  unify defaultFuel out (toPrologList (findall_solutions tmpl g σ)) σ

/-- Whether a term is a proper list. -/
def properList : Term → Bool
  | .atom s => s == "[]"
  | .clause f args =>
    match f, args with
    | ".", [_, t] => properList t
    | _, _ => false
  | _ => false

end Solve

/-! ## Theorems -/

/-! ### Shared helper lemmas -/

theorem list_getD_of_get? {α : Type} [Inhabited α] (l : List α) (n : Nat)
    (x : α) (h : l.get? n = some x) : l.getD n default = x := by
  rw [List.get?_eq_getElem?] at h
  simp [List.getD, h]

/-- The floored remainder is nonpositive when the divisor is negative. -/
theorem int_fmod_nonpos_of_neg : ∀ (a : ℤ) {b : ℤ}, b < 0 → Int.fmod a b ≤ 0 := by
  intro a b hb
  match a, b with
  | _, .ofNat n => exact absurd hb (by simp [Int.ofNat_nonneg, not_lt])
  | .ofNat 0, .negSucc n => simp [Int.fmod]
  | .ofNat (m + 1), .negSucc n =>
    have hlt : m % (n + 1) ≤ n :=
      Nat.lt_succ_iff.mp (Nat.mod_lt m (Nat.succ_pos n))
    show Int.subNatNat (m % (n + 1)) n ≤ 0
    rw [Int.subNatNat_eq_coe]
    omega
  | .negSucc m, .negSucc n =>
    show -(Int.ofNat ((m + 1) % (n + 1))) ≤ 0
    exact neg_nonpos_of_nonneg (Int.ofNat_nonneg _)

/-- The truncated remainder is nonpositive when the dividend is. -/
theorem int_tmod_nonpos : ∀ {a : ℤ} (b : ℤ), a ≤ 0 → Int.tmod a b ≤ 0 := by
  intro a b ha
  match a, b with
  | .ofNat 0, b => simp
  | .ofNat (m + 1), _ =>
    exact absurd ha (not_le.mpr (Int.ofNat_pos.mpr (Nat.succ_pos m)))
  | .negSucc m, .ofNat n =>
    show -(Int.ofNat ((m + 1) % n)) ≤ 0
    exact neg_nonpos_of_nonneg (Int.ofNat_nonneg _)
  | .negSucc m, .negSucc n =>
    show -(Int.ofNat ((m + 1) % (n + 1))) ≤ 0
    exact neg_nonpos_of_nonneg (Int.ofNat_nonneg _)

/-- `toPrologList` always builds a proper list. -/
theorem properList_toPrologList (ts : List Scryer.Toplevel.Term) :
    Scryer.Solve.properList (Scryer.Solve.toPrologList ts) = true := by
  induction ts with
  | nil => rfl
  | cons h t ih => exact ih

/-- Atom occurrence distributes over `fold_by_str`. -/
theorem containsAtom_fold_by_str (nm s : String)
    (ts : List Scryer.Toplevel.Term) (t : Scryer.Toplevel.Term) :
    Scryer.Toplevel.containsAtom nm (Scryer.Toplevel.fold_by_str ts t s)
      = (Scryer.Toplevel.containsAtomList nm ts
          || Scryer.Toplevel.containsAtom nm t) := by
  induction ts with
  | nil => simp [Scryer.Toplevel.fold_by_str, Scryer.Toplevel.containsAtomList]
  | cons x xs ih =>
    show Scryer.Toplevel.containsAtom nm
        (.clause s [x, Scryer.Toplevel.fold_by_str xs t s]) = _
    simp only [Scryer.Toplevel.containsAtom, Scryer.Toplevel.containsAtomList,
      Bool.or_false]
    rw [ih]
    simp [Bool.or_assoc]

/-- A list containing a term that contains the atom contains the atom. -/
theorem containsAtomList_of_mem (nm : String)
    {l : List Scryer.Toplevel.Term} {x : Scryer.Toplevel.Term}
    (hx : x ∈ l) (hc : Scryer.Toplevel.containsAtom nm x = true) :
    Scryer.Toplevel.containsAtomList nm l = true := by
  induction l with
  | nil => cases hx
  | cons y ys ih =>
    rcases List.mem_cons.mp hx with h | h
    · subst h
      simp [Scryer.Toplevel.containsAtomList, hc]
    · simp [Scryer.Toplevel.containsAtomList, ih h]

/-- `unfold_by_str` never returns the empty sequence. -/
theorem unfold_by_str_length_pos (t : Scryer.Toplevel.Term) (s : String) :
    0 < (Scryer.Toplevel.unfold_by_str t s).length := by
  match t with
  | .atom _ => simp [Scryer.Toplevel.unfold_by_str]
  | .num _ => simp [Scryer.Toplevel.unfold_by_str]
  | .var _ => simp [Scryer.Toplevel.unfold_by_str]
  | .clause name args =>
    match args with
    | [] => simp [Scryer.Toplevel.unfold_by_str]
    | [a] => simp [Scryer.Toplevel.unfold_by_str]
    | [a, b] =>
      simp only [Scryer.Toplevel.unfold_by_str]
      split <;> simp
    | a :: b :: c :: rest => simp [Scryer.Toplevel.unfold_by_str]

/-! ### C1 — backtracking and failure propagation -/

/-- C1 counterexample: an instruction signals failure with no choice point
while a thrown ball is still pending (the uncaught-throw path); the failure
reaches the caller of `submit_query` as `QueryFailureWithException`, not as
the claimed `SessionError::QueryFailure`. -/
theorem no_choice_point_failure_with_pending_ball_counterexample :
    Scryer.Engine.submit_query_result (Scryer.Engine.backtrack
        { b := 0, b0 := 0, p := .local (.dirEntry 5), fail := true,
          ball := [4], heap := [], orStack := [] })
      = .sessionError (.queryFailureWithException [4]) ∧
    Scryer.Engine.submit_query_result (Scryer.Engine.backtrack
        { b := 0, b0 := 0, p := .local (.dirEntry 5), fail := true,
          ball := [4], heap := [], orStack := [] })
      ≠ .sessionError .queryFailure := by
  exact ⟨rfl, by decide⟩

/-- C1 (amended): when an instruction signals failure and a choice point
exists, `backtrack` sets the PC to the topmost choice point's BP and
restores B0 from that choice point; with no choice point, the PC is parked
at top-level offset 0, where the stepper and driver loops stop, and — when
no uncaught ball is pending — the failure reaches the caller of
`submit_query` as `SessionError::QueryFailure`; `continue_query` likewise
reports `QueryFailure` at once on an empty OR-stack. -/
theorem backtrack_restores_bp_or_fails_to_caller
    (ms : Scryer.Engine.MachineState) (fr : Scryer.Engine.OrFrame)
    (codeLen teLen : Nat) :
    (0 < ms.b → ms.orStack.get? (ms.b - 1) = some fr →
      (Scryer.Engine.backtrack ms).p = fr.bp ∧
        (Scryer.Engine.backtrack ms).b0 = fr.b0) ∧
    (ms.b = 0 → ms.fail = true → ms.ball = [] →
      (Scryer.Engine.backtrack ms).p = .local (.topLevel 0 0) ∧
      Scryer.Engine.query_stepper_exits (Scryer.Engine.backtrack ms).p
          codeLen teLen = true ∧
      Scryer.Engine.run_query_continues (Scryer.Engine.backtrack ms).p
          = false ∧
      Scryer.Engine.submit_query_result (Scryer.Engine.backtrack ms)
          = .sessionError .queryFailure ∧
      Scryer.Engine.continue_query_entry ms
          = .error (.sessionError .queryFailure)) := by
  constructor
  · intro hb hget
    rw [List.get?_eq_getElem?] at hget
    unfold Scryer.Engine.backtrack
    rw [if_pos hb]
    simp [List.getD, hget]
  · intro h0 hf hball
    have hback : Scryer.Engine.backtrack ms
        = { ms with p := .local (.topLevel 0 0) } := by
      unfold Scryer.Engine.backtrack
      rw [if_neg (by omega)]
    refine ⟨by rw [hback], by rw [hback]; rfl, by rw [hback]; rfl, ?_, ?_⟩
    · rw [hback]
      unfold Scryer.Engine.submit_query_result Scryer.Engine.fail_result
      simp [hf, hball]
    · unfold Scryer.Engine.continue_query_entry
      rw [if_neg (by simp [h0])]

/-- Witness for the C1 theorem at two concrete machine states: one with a
single choice point whose BP is global-code address 9 and saved B0 is 5,
one with an empty OR-stack. -/
theorem backtrack_restores_bp_or_fails_to_caller_witness :
    ((Scryer.Engine.backtrack
        { b := 1, b0 := 0, p := .local (.dirEntry 0), fail := true,
          ball := [], heap := [],
          orStack := [⟨[], 2, .topLevel 0 0, 0,
            .local (.dirEntry 9), 3, 4, 5⟩] }).p
        = .local (.dirEntry 9) ∧
      (Scryer.Engine.backtrack
        { b := 1, b0 := 0, p := .local (.dirEntry 0), fail := true,
          ball := [], heap := [],
          orStack := [⟨[], 2, .topLevel 0 0, 0,
            .local (.dirEntry 9), 3, 4, 5⟩] }).b0
        = 5) ∧
    ((Scryer.Engine.backtrack
        { b := 0, b0 := 0, p := .local (.dirEntry 5), fail := true,
          ball := [], heap := [], orStack := [] }).p
        = .local (.topLevel 0 0) ∧
      Scryer.Engine.query_stepper_exits (Scryer.Engine.backtrack
        { b := 0, b0 := 0, p := .local (.dirEntry 5), fail := true,
          ball := [], heap := [], orStack := [] }).p 3 0 = true ∧
      Scryer.Engine.run_query_continues (Scryer.Engine.backtrack
        { b := 0, b0 := 0, p := .local (.dirEntry 5), fail := true,
          ball := [], heap := [], orStack := [] }).p = false ∧
      Scryer.Engine.submit_query_result (Scryer.Engine.backtrack
        { b := 0, b0 := 0, p := .local (.dirEntry 5), fail := true,
          ball := [], heap := [], orStack := [] })
        = .sessionError .queryFailure ∧
      Scryer.Engine.continue_query_entry
        { b := 0, b0 := 0, p := .local (.dirEntry 5), fail := true,
          ball := [], heap := [], orStack := [] }
        = .error (.sessionError .queryFailure)) := by
  constructor
  · exact (backtrack_restores_bp_or_fails_to_caller _
      { args := [], e := 2, cp := .topLevel 0 0, b := 0,
        bp := .local (.dirEntry 9), hb := 3, tr := 4, b0 := 5 } 3 0).1
      (by decide) (by rfl)
  · exact (backtrack_restores_bp_or_fails_to_caller _ default 3 0).2
      rfl rfl rfl

/-! ### C7 — uncaught exceptions at the interface -/

/-- C7: when a query fails with a non-empty ball stub, `submit_query` and
`continue_query` return a failure-with-exception whose payload is the ball
copied back onto the heap top and formatted from there; with an empty ball
stub they return a plain query failure. -/
theorem fail_result_reports_pending_ball (ms : Scryer.Engine.MachineState)
    (hf : ms.fail = true) :
    (ms.ball ≠ [] →
      Scryer.Engine.submit_query_result ms
          = .sessionError (.queryFailureWithException ms.ball) ∧
        Scryer.Engine.continue_query_result ms
          = .sessionError (.queryFailureWithException ms.ball)) ∧
    (ms.ball = [] →
      Scryer.Engine.submit_query_result ms = .sessionError .queryFailure ∧
        Scryer.Engine.continue_query_result ms
          = .sessionError .queryFailure) := by
  have hfr : ms.ball ≠ [] → Scryer.Engine.fail_result ms
      = .sessionError (.queryFailureWithException ms.ball) := by
    intro hball
    unfold Scryer.Engine.fail_result Scryer.Engine.copy_and_align_ball_to_heap
      Scryer.Engine.print_exception
    rw [if_pos (by simpa [List.length_pos] using hball)]
    simp [List.drop_left]
  have hfe : ms.ball = [] → Scryer.Engine.fail_result ms
      = .sessionError .queryFailure := by
    intro hball
    unfold Scryer.Engine.fail_result
    rw [if_neg (by simp [hball])]
  constructor
  · intro hball
    constructor
    · unfold Scryer.Engine.submit_query_result
      rw [if_pos hf, hfr hball]
    · unfold Scryer.Engine.continue_query_result
      rw [if_pos hf, hfr hball]
  · intro hball
    constructor
    · unfold Scryer.Engine.submit_query_result
      rw [if_pos hf, hfe hball]
    · unfold Scryer.Engine.continue_query_result
      rw [if_pos hf, hfe hball]

/-- Witness for the C7 theorem at two concrete failed states: one with
ball stub `[9]` over heap `[1, 2]`, one with an empty ball stub. -/
theorem fail_result_reports_pending_ball_witness :
    (Scryer.Engine.submit_query_result
        { b := 0, b0 := 0, p := .local (.topLevel 0 0), fail := true,
          ball := [9], heap := [1, 2], orStack := [] }
        = .sessionError (.queryFailureWithException [9]) ∧
      Scryer.Engine.continue_query_result
        { b := 0, b0 := 0, p := .local (.topLevel 0 0), fail := true,
          ball := [9], heap := [1, 2], orStack := [] }
        = .sessionError (.queryFailureWithException [9])) ∧
    (Scryer.Engine.submit_query_result
        { b := 0, b0 := 0, p := .local (.topLevel 0 0), fail := true,
          ball := [], heap := [1, 2], orStack := [] }
        = .sessionError .queryFailure ∧
      Scryer.Engine.continue_query_result
        { b := 0, b0 := 0, p := .local (.topLevel 0 0), fail := true,
          ball := [], heap := [1, 2], orStack := [] }
        = .sessionError .queryFailure) := by
  constructor
  · exact (fail_result_reports_pending_ball _ rfl).1 (by decide)
  · exact (fail_result_reports_pending_ball _ rfl).2 rfl

/-! ### C6 — loading batched code -/

/-- Every error of the checking pass is one of the two permission errors. -/
theorem check_batch_some_isPermissionError
    (is_builtin : Scryer.Indices.Key → Bool) (master : Scryer.Indices.CodeDir) :
    ∀ (dir : Scryer.Indices.CodeDir) (e : Scryer.Engine.SessionError),
      Scryer.Batch.check_batch is_builtin master dir = some e →
      e.isPermissionError = true := by
  intro dir
  induction dir with
  | nil =>
    intro e h
    simp [Scryer.Batch.check_batch] at h
  | cons hd rest ih =>
    intro e h
    obtain ⟨k, idx⟩ := hd
    unfold Scryer.Batch.check_batch at h
    split at h
    · rw [← Option.some.inj h]
      rfl
    · split at h
      · split at h
        · split at h
          · exact ih e h
          · split at h
            · rw [← Option.some.inj h]
              rfl
            · exact ih e h
        · exact ih e h
      · exact ih e h

/-- If the checking pass accepts the batch, no entry collides with a
built-in key and no entry redefines a predicate owned by a foreign
module. -/
theorem check_batch_none_sound
    (is_builtin : Scryer.Indices.Key → Bool) (master : Scryer.Indices.CodeDir) :
    ∀ (dir : Scryer.Indices.CodeDir),
      Scryer.Batch.check_batch is_builtin master dir = none →
      ∀ k idx, (k, idx) ∈ dir →
        is_builtin k = false ∧
        ∀ ex, Scryer.Indices.lookup master k = some ex →
          ex.undefined = false → idx.undefined = false →
          ex.module_name ≠ "user" → ex.module_name = idx.module_name := by
  intro dir
  induction dir with
  | nil =>
    intro _ k idx hmem
    cases hmem
  | cons hd rest ih =>
    intro hnone k idx hmem
    obtain ⟨k0, idx0⟩ := hd
    unfold Scryer.Batch.check_batch at hnone
    split at hnone
    · cases hnone
    · rename_i hbi
      split at hnone
      · rename_i ex0 hlk
        split at hnone
        · rename_i hc
          split at hnone
          · rename_i hu
            rcases List.mem_cons.mp hmem with he | hm
            · rw [Prod.mk.injEq] at he
              obtain ⟨hk, hi⟩ := he
              subst hk
              subst hi
              refine ⟨Bool.eq_false_iff.mpr hbi, ?_⟩
              intro ex hex _ _ hnu
              rw [hex] at hlk
              cases Option.some.inj hlk
              exact absurd hu hnu
            · exact ih hnone k idx hm
          · rename_i hu
            split at hnone
            · cases hnone
            · rename_i hm2
              push_neg at hm2
              rcases List.mem_cons.mp hmem with he | hm
              · rw [Prod.mk.injEq] at he
                obtain ⟨hk, hi⟩ := he
                subst hk
                subst hi
                refine ⟨Bool.eq_false_iff.mpr hbi, ?_⟩
                intro ex hex _ _ _
                rw [hex] at hlk
                cases Option.some.inj hlk
                exact hm2
              · exact ih hnone k idx hm
        · rename_i hc
          rcases List.mem_cons.mp hmem with he | hm
          · rw [Prod.mk.injEq] at he
            obtain ⟨hk, hi⟩ := he
            subst hk
            subst hi
            refine ⟨Bool.eq_false_iff.mpr hbi, ?_⟩
            intro ex hex hex1 hex2 _
            rw [hex] at hlk
            cases Option.some.inj hlk
            exact absurd ⟨hex1, hex2⟩ hc
          · exact ih hnone k idx hm
      · rename_i hlk
        rcases List.mem_cons.mp hmem with he | hm
        · rw [Prod.mk.injEq] at he
          obtain ⟨hk, hi⟩ := he
          subst hk
          subst hi
          refine ⟨Bool.eq_false_iff.mpr hbi, ?_⟩
          intro ex hex
          rw [hex] at hlk
          cases hlk
        · exact ih hnone k idx hm

/-- C6: `add_batched_code` raises a permission error whenever a batch entry
collides with a built-in key or would redefine an already-defined predicate
imported from a different (non-`user`) module, and on any error it leaves
the machine's code vector and code directory unchanged. -/
theorem add_batched_code_raises_permission_error_and_is_atomic
    (is_builtin : Scryer.Indices.Key → Bool) (m : Scryer.Batch.MachineFrag)
    (bcode : List Nat) (bdir : Scryer.Indices.CodeDir) :
    (∀ e, (Scryer.Batch.add_batched_code is_builtin m bcode bdir).2 = some e →
      (Scryer.Batch.add_batched_code is_builtin m bcode bdir).1 = m ∧
        e.isPermissionError = true) ∧
    ((∃ k idx, (k, idx) ∈ bdir ∧ is_builtin k = true) →
      ∃ e, (Scryer.Batch.add_batched_code is_builtin m bcode bdir).2
        = some e) ∧
    ((∃ k idx ex, (k, idx) ∈ bdir ∧
        Scryer.Indices.lookup m.code_dir k = some ex ∧
        ex.undefined = false ∧ idx.undefined = false ∧
        ex.module_name ≠ "user" ∧ ex.module_name ≠ idx.module_name) →
      ∃ e, (Scryer.Batch.add_batched_code is_builtin m bcode bdir).2
        = some e) := by
  refine ⟨?_, ?_, ?_⟩
  · intro e he
    unfold Scryer.Batch.add_batched_code at he ⊢
    rcases hc : Scryer.Batch.check_batch is_builtin m.code_dir bdir
      with _ | e0
    · rw [hc] at he
      exact Option.noConfusion he
    · rw [hc] at he
      cases Option.some.inj he
      exact ⟨rfl, check_batch_some_isPermissionError is_builtin m.code_dir
        bdir _ hc⟩
  · rintro ⟨k, idx, hmem, hbi⟩
    rcases hc : Scryer.Batch.check_batch is_builtin m.code_dir bdir
      with _ | e0
    · exfalso
      have h1 := (check_batch_none_sound is_builtin m.code_dir bdir hc
        k idx hmem).1
      rw [hbi] at h1
      cases h1
    · exact ⟨e0, by unfold Scryer.Batch.add_batched_code; rw [hc]⟩
  · rintro ⟨k, idx, ex, hmem, hlk, h1, h2, h3, h4⟩
    rcases hc : Scryer.Batch.check_batch is_builtin m.code_dir bdir
      with _ | e0
    · exfalso
      exact h4 ((check_batch_none_sound is_builtin m.code_dir bdir hc
        k idx hmem).2 ex hlk h1 h2 h3)
    · exact ⟨e0, by unfold Scryer.Batch.add_batched_code; rw [hc]⟩

/-- Witness for the C6 theorem: a batch overwriting the built-in `catch/3`
is rejected leaving the machine unchanged, and a batch redefining `p/1`,
owned by module `m1`, from module `m2` is rejected too. -/
theorem add_batched_code_raises_permission_error_and_is_atomic_witness :
    ((Scryer.Batch.add_batched_code (fun k => decide (k.1 = "catch"))
        { code := [7], code_dir := [(("p", 1), ⟨false, 0, "m1"⟩)] }
        [9] [(("catch", 3), ⟨false, 2, "user"⟩)]).1
      = { code := [7], code_dir := [(("p", 1), ⟨false, 0, "m1"⟩)] } ∧
      (Scryer.Engine.SessionError.cannotOverwriteBuiltIn
        ("catch", 3)).isPermissionError = true) ∧
    (∃ e, (Scryer.Batch.add_batched_code (fun k => decide (k.1 = "catch"))
        { code := [7], code_dir := [(("p", 1), ⟨false, 0, "m1"⟩)] }
        [9] [(("catch", 3), ⟨false, 2, "user"⟩)]).2 = some e) ∧
    (∃ e, (Scryer.Batch.add_batched_code (fun _ => false)
        { code := [7], code_dir := [(("p", 1), ⟨false, 0, "m1"⟩)] }
        [9] [(("p", 1), ⟨false, 2, "m2"⟩)]).2 = some e) := by
  refine ⟨?_, ?_, ?_⟩
  · exact (add_batched_code_raises_permission_error_and_is_atomic
      (fun k => decide (k.1 = "catch"))
      { code := [7], code_dir := [(("p", 1), ⟨false, 0, "m1"⟩)] }
      [9] [(("catch", 3), ⟨false, 2, "user"⟩)]).1
      (.cannotOverwriteBuiltIn ("catch", 3)) (by decide)
  · exact (add_batched_code_raises_permission_error_and_is_atomic
      (fun k => decide (k.1 = "catch"))
      { code := [7], code_dir := [(("p", 1), ⟨false, 0, "m1"⟩)] }
      [9] [(("catch", 3), ⟨false, 2, "user"⟩)]).2.1
      ⟨("catch", 3), ⟨false, 2, "user"⟩, by decide, by decide⟩
  · exact (add_batched_code_raises_permission_error_and_is_atomic
      (fun _ => false)
      { code := [7], code_dir := [(("p", 1), ⟨false, 0, "m1"⟩)] }
      [9] [(("p", 1), ⟨false, 2, "m2"⟩)]).2.2
      ⟨("p", 1), ⟨false, 2, "m2"⟩, ⟨false, 0, "m1"⟩, by decide, by decide,
        by decide, by decide, by decide, by decide⟩

/-! ### C10 — qualified module imports -/

/-- Whether `import_decl` succeeds depends only on the submodule's
directories, not on the importing user's state. -/
theorem import_decl_snd_indep (u u' : Scryer.Modules.UserStore) (n : String)
    (a : Nat) (sub : Scryer.Modules.Module) :
    (Scryer.Modules.import_decl u n a sub).2
      = (Scryer.Modules.import_decl u' n a sub).2 := by
  unfold Scryer.Modules.import_decl Scryer.Modules.insert_op_dir
  by_cases h1 : a = 1
  · subst h1
    rcases hpre : Scryer.Modules.opLookup sub.op_dir
        (Scryer.Modules.defrock_brackets n, .pre) with _ | v1 <;>
      rcases hpost : Scryer.Modules.opLookup sub.op_dir
        (Scryer.Modules.defrock_brackets n, .post) with _ | v2 <;>
      rcases hcd : Scryer.Indices.lookup sub.code_dir
        (Scryer.Modules.defrock_brackets n, 1) with _ | c <;>
      simp [hpre, hpost, hcd]
  · by_cases h2 : a = 2
    · subst h2
      rcases hinf : Scryer.Modules.opLookup sub.op_dir
          (Scryer.Modules.defrock_brackets n, .inf) with _ | v3 <;>
        rcases hcd : Scryer.Indices.lookup sub.code_dir
          (Scryer.Modules.defrock_brackets n, 2) with _ | c <;>
        simp [hinf, hcd]
    · rcases hcd : Scryer.Indices.lookup sub.code_dir
        (Scryer.Modules.defrock_brackets n, a) with _ | c <;>
      simp [h1, h2, hcd]

/-- A fully importable request list succeeds, importing exactly the
requested keys that are declared exported. -/
theorem use_qualified_module_ok_of_importable (sub : Scryer.Modules.Module) :
    ∀ (req : List Scryer.Indices.Key) (u : Scryer.Modules.UserStore),
      (∀ k1 ∈ req, k1 ∈ sub.exports →
        (Scryer.Modules.import_decl u k1.1 k1.2 sub).2 = true) →
      Scryer.Modules.use_qualified_module u sub req
        = .ok (Scryer.Modules.import_all u sub
            (req.filter (fun k1 => decide (k1 ∈ sub.exports)))) := by
  intro req
  induction req with
  | nil =>
    intro u _
    rfl
  | cons k1 rest ih =>
    intro u h
    unfold Scryer.Modules.use_qualified_module
    by_cases hk : k1 ∈ sub.exports
    · rw [if_pos hk]
      have hb : (Scryer.Modules.import_decl u k1.1 k1.2 sub).2 = true :=
        h k1 (List.mem_cons_self k1 rest) hk
      rcases hid : Scryer.Modules.import_decl u k1.1 k1.2 sub with ⟨u1, b⟩
      rw [hid] at hb
      cases hb
      rw [List.filter_cons_of_pos (by simpa using hk)]
      have hr : Scryer.Modules.import_all u sub
          (k1 :: rest.filter (fun k2 => decide (k2 ∈ sub.exports)))
          = Scryer.Modules.import_all u1 sub
            (rest.filter (fun k2 => decide (k2 ∈ sub.exports))) := by
        simp only [Scryer.Modules.import_all, List.foldl_cons]
        rw [hid]
      rw [hr]
      exact ih u1 (fun k2 hk2 hx => by
        rw [import_decl_snd_indep u1 u]
        exact h k2 (List.mem_cons_of_mem k1 hk2) hx)
    · rw [if_neg hk]
      rw [List.filter_cons_of_neg (by simpa using hk)]
      exact ih u (fun k2 hk2 hx => h k2 (List.mem_cons_of_mem k1 hk2) hx)

/-- An erroring qualified import yields `ModuleDoesNotContainExport`,
caused by a requested key that is declared exported yet not importable. -/
theorem use_qualified_module_error_inv (sub : Scryer.Modules.Module) :
    ∀ (req : List Scryer.Indices.Key) (u : Scryer.Modules.UserStore)
      (e : Scryer.Engine.SessionError),
      Scryer.Modules.use_qualified_module u sub req = .error e →
      e = .moduleDoesNotContainExport ∧
      ∃ k1 ∈ req, k1 ∈ sub.exports ∧
        (Scryer.Modules.import_decl u k1.1 k1.2 sub).2 = false := by
  intro req
  induction req with
  | nil =>
    intro u e h
    exact Except.noConfusion h
  | cons k1 rest ih =>
    intro u e h
    unfold Scryer.Modules.use_qualified_module at h
    by_cases hk : k1 ∈ sub.exports
    · rw [if_pos hk] at h
      rcases hid : Scryer.Modules.import_decl u k1.1 k1.2 sub with ⟨u1, b⟩
      rw [hid] at h
      cases b
      · refine ⟨(Except.error.inj h).symm, k1, List.mem_cons_self k1 rest,
          hk, ?_⟩
        rw [hid]
      · obtain ⟨he, k2, hmem, hx, hf⟩ := ih u1 e h
        refine ⟨he, k2, List.mem_cons_of_mem k1 hmem, hx, ?_⟩
        rw [import_decl_snd_indep u u1]
        exact hf
    · rw [if_neg hk] at h
      obtain ⟨he, k2, hmem, hx, hf⟩ := ih u e h
      exact ⟨he, k2, List.mem_cons_of_mem k1 hmem, hx, hf⟩

/-- C10: `use_qualified_module` silently skips a requested key that is not
among the submodule's declared exports; when every requested declared
export is importable it succeeds, importing exactly the requested keys of
the declared export list; and it returns an error only as
`ModuleDoesNotContainExport`, only when some requested declared export
cannot actually be imported from the submodule's code and operator
directories. -/
theorem use_qualified_module_skips_undeclared_and_errors_only_on_exports
    (u : Scryer.Modules.UserStore) (sub : Scryer.Modules.Module)
    (req : List Scryer.Indices.Key) (k : Scryer.Indices.Key) :
    (k ∉ sub.exports →
      Scryer.Modules.use_qualified_module u sub (k :: req)
        = Scryer.Modules.use_qualified_module u sub req) ∧
    ((∀ k1 ∈ req, k1 ∈ sub.exports →
        (Scryer.Modules.import_decl u k1.1 k1.2 sub).2 = true) →
      Scryer.Modules.use_qualified_module u sub req
        = .ok (Scryer.Modules.import_all u sub
            (req.filter (fun k1 => decide (k1 ∈ sub.exports))))) ∧
    (∀ e, Scryer.Modules.use_qualified_module u sub req = .error e →
      e = .moduleDoesNotContainExport ∧
      ∃ k1 ∈ req, k1 ∈ sub.exports ∧
        (Scryer.Modules.import_decl u k1.1 k1.2 sub).2 = false) := by
  refine ⟨?_, use_qualified_module_ok_of_importable sub req u,
    use_qualified_module_error_inv sub req u⟩
  intro hk
  simp only [Scryer.Modules.use_qualified_module]
  rw [if_neg hk]

/-- Witness for the C10 theorem at two concrete configurations: a module
exporting `a/1` with code for it (requests `[a/1, zz/2]`, where `zz/2` is
not exported and is skipped), and a module declaring `b/2` exported but
containing no code or operator for it (requesting `[b/2]` errors). -/
theorem use_qualified_module_skips_undeclared_and_errors_only_on_exports_witness :
    (Scryer.Modules.use_qualified_module ⟨[], []⟩
        { name := "m", exports := [("a", 1)],
          code_dir := [(("a", 1), ⟨false, 0, "m"⟩)], op_dir := [] }
        [("zz", 2), ("a", 1)]
      = Scryer.Modules.use_qualified_module ⟨[], []⟩
        { name := "m", exports := [("a", 1)],
          code_dir := [(("a", 1), ⟨false, 0, "m"⟩)], op_dir := [] }
        [("a", 1)]) ∧
    (Scryer.Modules.use_qualified_module ⟨[], []⟩
        { name := "m", exports := [("a", 1)],
          code_dir := [(("a", 1), ⟨false, 0, "m"⟩)], op_dir := [] }
        [("a", 1), ("zz", 2)]
      = .ok (Scryer.Modules.import_all ⟨[], []⟩
          { name := "m", exports := [("a", 1)],
            code_dir := [(("a", 1), ⟨false, 0, "m"⟩)], op_dir := [] }
          ([("a", 1), ("zz", 2)].filter (fun k1 => decide (k1 ∈
            [(("a" : String), 1)]))))) ∧
    (Scryer.Engine.SessionError.moduleDoesNotContainExport
        = .moduleDoesNotContainExport ∧
      ∃ k1 ∈ [(("b" : String), 2)], k1 ∈ [(("b" : String), 2)] ∧
        (Scryer.Modules.import_decl ⟨[], []⟩ k1.1 k1.2
          { name := "me", exports := [("b", 2)], code_dir := [],
            op_dir := [] }).2 = false) := by
  refine ⟨?_, ?_, ?_⟩
  · exact (use_qualified_module_skips_undeclared_and_errors_only_on_exports
      ⟨[], []⟩
      { name := "m", exports := [("a", 1)],
        code_dir := [(("a", 1), ⟨false, 0, "m"⟩)], op_dir := [] }
      [("a", 1)] ("zz", 2)).1 (by decide)
  · exact (use_qualified_module_skips_undeclared_and_errors_only_on_exports
      ⟨[], []⟩
      { name := "m", exports := [("a", 1)],
        code_dir := [(("a", 1), ⟨false, 0, "m"⟩)], op_dir := [] }
      [("a", 1), ("zz", 2)] ("zz", 2)).2.1 (by decide)
  · exact (use_qualified_module_skips_undeclared_and_errors_only_on_exports
      ⟨[], []⟩
      { name := "me", exports := [("b", 2)], code_dir := [], op_dir := [] }
      [("b", 2)] ("b", 2)).2.2 .moduleDoesNotContainExport rfl

/-! ### C5 — findall -/

/-- C5: `findall(Template, Goal, List)` runs Goal to exhaustion, collects a
copy of Template per success into a proper list unified with List, and the
Goal's bindings never escape: `findall(X, (X = 1 ; X = 2), S)` yields
`S = [1,2]` with `X` still unbound afterwards, and `findall(X, false, S)`
yields `S = []`. -/
theorem findall_collects_solutions_and_bindings_do_not_escape :
    (∀ (tmpl : Scryer.Toplevel.Term) (g : Scryer.Solve.Goal)
        (σ : Scryer.Solve.Subst),
      Scryer.Solve.properList
          (Scryer.Solve.toPrologList (Scryer.Solve.findall_solutions tmpl g σ))
        = true) ∧
    Scryer.Solve.findall (.var "X")
        (.disj (.eq (.var "X") (.num 1)) (.eq (.var "X") (.num 2)))
        (.var "S") []
      = some [("S", .clause "." [.num 1, .clause "." [.num 2, .atom "[]"]])] ∧
    Option.map (fun σ1 => Scryer.Solve.slookup σ1 "X")
        (Scryer.Solve.findall (.var "X")
          (.disj (.eq (.var "X") (.num 1)) (.eq (.var "X") (.num 2)))
          (.var "S") [])
      = some none ∧
    Scryer.Solve.findall (.var "X") .ff (.var "S") []
      = some [("S", .atom "[]")] := by
  exact ⟨fun tmpl g σ => properList_toPrologList _, by decide, by decide,
    by decide⟩

/-! ### C2 — cuts inside disjunctions -/

/-- C2 counterexample: compiling the body `(!, a ; b)`, the cut inside the
first disjunct is not renamed to the atom `blocked_!` — `fabricate_disjunct`
turns it into the cut **variable** `!`, and `to_query_term` compiles that
variable as `QueryTerm::UnblockedCut`, not as the blocked form. -/
theorem disjunct_cut_not_renamed_to_blocked_counterexample :
    (Scryer.Toplevel.fabricate_disjunct
        (.clause ";" [.clause "," [.atom "!", .atom "a"], .atom "b"])).2
      = [Scryer.Toplevel.Term.clause ":-" [.clause "" [.var "!"],
           .clause "," [.var "!", .atom "a"]],
         .clause ":-" [.clause "" [.var "!"], .atom "b"]] ∧
    Scryer.Toplevel.containsAtom "blocked_!"
        (Scryer.Toplevel.Term.clause ":-" [.clause "" [.var "!"],
          .clause "," [.var "!", .atom "a"]])
      = false ∧
    Scryer.Toplevel.to_query_term (.var "!") = .ok (.unblockedCut, []) ∧
    Scryer.Toplevel.QueryTerm.unblockedCut ≠ .blockedCut := by
  exact ⟨by decide, by decide, rfl, by decide⟩

/-- C2 (amended): a cut occurring in goal position inside a disjunct is
converted by `mark_cut_variables` into the cut variable `!`, which
`to_query_term` compiles as `QueryTerm::UnblockedCut` — a cut into the
enclosing clause's saved level, not a blocked no-op.  The atom `blocked_!`
is produced only for if-then antecedents: `fabricate_if_then` appends a
commit cut and renames every `!` of the antecedent to `blocked_!` (so its
fabricated rule always carries a `blocked_!`), and `to_query_term` maps the
atom `blocked_!`, exactly like a bare `!` atom, to the non-leaking
`QueryTerm::BlockedCut`. -/
theorem disjunct_cuts_become_cut_variables
    (ts : List Scryer.Toplevel.Term) (i : Nat)
    (prec conq : Scryer.Toplevel.Term) :
    (Scryer.Toplevel.mark_cut_variables ts).1[i]?
        = ts[i]?.map (fun t => (Scryer.Toplevel.mark_cut_variable t).1) ∧
    Scryer.Toplevel.mark_cut_variable (.atom "!") = (.var "!", true) ∧
    Scryer.Toplevel.to_query_term (.var "!") = .ok (.unblockedCut, []) ∧
    Scryer.Toplevel.to_query_term (.atom "blocked_!")
        = .ok (.blockedCut, []) ∧
    Scryer.Toplevel.to_query_term (.atom "!") = .ok (.blockedCut, []) ∧
    (Scryer.Toplevel.fabricate_if_then prec conq).2.any
        (Scryer.Toplevel.containsAtom "blocked_!") = true := by
  refine ⟨?_, rfl, rfl, rfl, rfl, ?_⟩
  · simp only [Scryer.Toplevel.mark_cut_variables, List.getElem?_map]
    cases ts[i]? <;> rfl
  · have hlen : 2 ≤ (Scryer.Toplevel.fabricate_if_then_seq prec conq).length := by
      have h1 := unfold_by_str_length_pos prec ","
      show 2 ≤ (Scryer.Toplevel.mark_cut_variables_as
          (Scryer.Toplevel.unfold_by_str prec ","
            ++ [Scryer.Toplevel.Term.atom "!"]) "blocked_!"
          ++ (Scryer.Toplevel.mark_cut_variables
              (Scryer.Toplevel.unfold_by_str conq ",")).1).length
      simp only [Scryer.Toplevel.mark_cut_variables_as, List.length_append,
        List.length_map, List.length_singleton]
      omega
    have hmem : Scryer.Toplevel.Term.atom "blocked_!"
        ∈ Scryer.Toplevel.fabricate_if_then_seq prec conq := by
      refine List.mem_append_left _ ?_
      show Scryer.Toplevel.Term.atom "blocked_!"
        ∈ (Scryer.Toplevel.unfold_by_str prec ","
            ++ [Scryer.Toplevel.Term.atom "!"]).map _
      exact List.mem_map.mpr
        ⟨.atom "!", List.mem_append_right _ (List.mem_singleton.mpr rfl),
          by simp [Scryer.Toplevel.mark_cut_variables_as]⟩
    rcases hrev : (Scryer.Toplevel.fabricate_if_then_seq prec conq).reverse
      with _ | ⟨back, _ | ⟨front, rest_rev⟩⟩
    · exfalso
      have hl := congrArg List.length hrev
      simp only [List.length_reverse, List.length_nil] at hl
      omega
    · exfalso
      have hl := congrArg List.length hrev
      simp only [List.length_reverse, List.length_cons, List.length_nil] at hl
      omega
    · have hs : Scryer.Toplevel.fabricate_if_then_seq prec conq
          = rest_rev.reverse ++ [front, back] := by
        have h2 := congrArg List.reverse hrev
        simpa using h2
      have hred : Scryer.Toplevel.fabricate_if_then prec conq
          = Scryer.Toplevel.fabricate_rule (Scryer.Toplevel.fold_by_str
              rest_rev.reverse (.clause "," [front, back]) ",") := by
        unfold Scryer.Toplevel.fabricate_if_then
        rw [hrev]
      rw [hred]
      simp only [Scryer.Toplevel.fabricate_rule, List.any_cons, List.any_nil,
        Bool.or_false, Scryer.Toplevel.fabricate_rule_body,
        Scryer.Toplevel.containsAtom, Scryer.Toplevel.containsAtomList]
      rw [containsAtom_fold_by_str]
      rw [hs] at hmem
      have hsingle : Scryer.Toplevel.containsAtom "blocked_!"
          (Scryer.Toplevel.Term.atom "blocked_!") = true := by decide
      rcases List.mem_append.mp hmem with h | h
      · rw [containsAtomList_of_mem "blocked_!" h hsingle]
        simp
      · rcases List.mem_cons.mp h with h1 | h1
        · rw [h1] at hsingle
          simp [Scryer.Toplevel.containsAtom,
            Scryer.Toplevel.containsAtomList, hsingle]
        · have h2 := List.mem_singleton.mp h1
          rw [h2] at hsingle
          simp [Scryer.Toplevel.containsAtom,
            Scryer.Toplevel.containsAtomList, hsingle]

/-! ### C9 — permanent cells of an environment frame -/

/-- C9: `Frame::new` does initialize every permanent cell to the
self-referential stack address of its own 1-indexed slot (shown here at
`fr = 3`, `n = 2`), but a cell newly added by `AndStack::resize` stores its
0-based position instead of its 1-indexed slot: growing the 1-cell frame
`fr = 0` of a singleton stack to 2 cells leaves `frame[2] =
StackCell(0, 1)` — an alias of slot 1 — where the claimed correspondence
requires the self-reference `StackCell(0, 2)`. -/
theorem resize_cell_breaks_self_reference :
    ((Scryer.AndStack.Frame.new 7 3 0 default 2).get1 1
        = some (Scryer.AndStack.Addr.stackCell 3 1) ∧
      (Scryer.AndStack.Frame.new 7 3 0 default 2).get1 2
        = some (Scryer.AndStack.Addr.stackCell 3 2)) ∧
    (((Scryer.AndStack.Stack.push ⟨[]⟩ 7 0 default 1).resize 0 2).frames.get? 0
        |>.bind (fun f => f.get1 2))
      = some (Scryer.AndStack.Addr.stackCell 0 1) ∧
    Scryer.AndStack.Addr.stackCell 0 1 ≠ Scryer.AndStack.Addr.stackCell 0 2 := by
  exact ⟨⟨rfl, rfl⟩, rfl, by decide⟩

/-! ### C4 — division by zero -/

/-- C4: integer division `//` by zero, and `/` with a rational or float
left operand and a zero right operand, evaluate to
`evaluation_error(zero_divisor)` — the thrown ball
`error(evaluation_error(zero_divisor), _)` that `catch/3` observes. -/
theorem division_by_zero_raises_zero_divisor
    (m : ℤ) (q q' : ℚ) (y : Scryer.Arith.Number) (hy : y.isZero = true) :
    Scryer.Arith.eval (.idiv (.num (.int m)) (.num (.int 0)))
        = .error .zeroDivisor ∧
    Scryer.Arith.eval (.div (.num (.rat q)) (.num y))
        = .error .zeroDivisor ∧
    Scryer.Arith.eval (.div (.num (.flt q')) (.num y))
        = .error .zeroDivisor := by
  refine ⟨?_, ?_, ?_⟩
  · show Scryer.Arith.numIDiv (.int m) (.int 0) = .error .zeroDivisor
    simp [Scryer.Arith.numIDiv]
  · show Scryer.Arith.numDiv (.rat q) y = .error .zeroDivisor
    simp [Scryer.Arith.numDiv, hy]
  · show Scryer.Arith.numDiv (.flt q') y = .error .zeroDivisor
    simp [Scryer.Arith.numDiv, hy]

/-- Witness for the C4 theorem at the tested inputs `5 // 0`,
`(5 rdiv 1) / 0` and `5.0 / 0`. -/
theorem division_by_zero_raises_zero_divisor_witness :
    Scryer.Arith.eval (.idiv (.num (.int 5)) (.num (.int 0)))
        = .error .zeroDivisor ∧
    Scryer.Arith.eval (.div (.num (.rat 5)) (.num (.int 0)))
        = .error .zeroDivisor ∧
    Scryer.Arith.eval (.div (.num (.flt 5)) (.num (.int 0)))
        = .error .zeroDivisor :=
  division_by_zero_raises_zero_divisor 5 5 5 (.int 0) (by decide)

/-! ### C8 — mod and rem signs -/

/-- C8: on integers, `mod` evaluates to a remainder whose sign follows the
divisor, `rem` to one whose sign follows the dividend; in particular
`10 rem -3` is `1` and `10 mod -3` is `-2`. -/
theorem mod_sign_follows_divisor_rem_sign_follows_dividend
    (a b : ℤ) (hb : b ≠ 0) :
    (∃ r : ℤ, Scryer.Arith.eval (.emod (.num (.int a)) (.num (.int b)))
        = .ok (.int r) ∧ (0 < b → 0 ≤ r) ∧ (b < 0 → r ≤ 0)) ∧
    (∃ r : ℤ, Scryer.Arith.eval (.erem (.num (.int a)) (.num (.int b)))
        = .ok (.int r) ∧ (0 ≤ a → 0 ≤ r) ∧ (a ≤ 0 → r ≤ 0)) ∧
    Scryer.Arith.eval (.erem (.num (.int 10)) (.num (.int (-3))))
        = .ok (.int 1) ∧
    Scryer.Arith.eval (.emod (.num (.int 10)) (.num (.int (-3))))
        = .ok (.int (-2)) := by
  refine ⟨⟨Int.fmod a b, ?_, ?_, ?_⟩, ⟨Int.tmod a b, ?_, ?_, ?_⟩, ?_, ?_⟩
  · show Scryer.Arith.numMod (.int a) (.int b) = .ok (.int (Int.fmod a b))
    simp [Scryer.Arith.numMod, hb]
  · intro h
    exact Int.fmod_nonneg' a h
  · intro h
    exact int_fmod_nonpos_of_neg a h
  · show Scryer.Arith.numRem (.int a) (.int b) = .ok (.int (Int.tmod a b))
    simp [Scryer.Arith.numRem, hb]
  · intro h
    exact Int.tmod_nonneg b h
  · intro h
    exact int_tmod_nonpos b h
  · rfl
  · rfl

/-- Witness for the C8 theorem at the tested input `a = 10`, `b = -3`. -/
theorem mod_sign_follows_divisor_rem_sign_follows_dividend_witness :
    Scryer.Arith.eval (.erem (.num (.int 10)) (.num (.int (-3))))
        = .ok (.int 1) ∧
    Scryer.Arith.eval (.emod (.num (.int 10)) (.num (.int (-3))))
        = .ok (.int (-2)) :=
  ⟨(mod_sign_follows_divisor_rem_sign_follows_dividend 10 (-3)
      (by decide)).2.2.1,
    (mod_sign_follows_divisor_rem_sign_follows_dividend 10 (-3)
      (by decide)).2.2.2⟩

/-! ### C3 — setup_call_cleanup -/

/-- C3: `setup_call_cleanup(S, G, C)` runs the cleanup exactly once whether
G succeeds deterministically, fails, or throws; and when both G and C
throw, the goal's exception wins — in particular
`catch(setup_call_cleanup(true, throw(goal), throw(cl)), Pat, true)`
succeeds binding `Pat = goal`. -/
theorem setup_call_cleanup_runs_cleanup_once_and_goal_exception_wins
    (det : Bool) (c : Scryer.Scc.CleanupOutcome) (bg bc : String) :
    (Scryer.Scc.setup_call_cleanup (.succeeds det) c).cleanup_runs = 1 ∧
    (Scryer.Scc.setup_call_cleanup .fails c).cleanup_runs = 1 ∧
    (Scryer.Scc.setup_call_cleanup (.throws bg) c).cleanup_runs = 1 ∧
    (Scryer.Scc.setup_call_cleanup (.throws bg) (.throws bc)).outcome
      = .exception bg ∧
    Scryer.Scc.catch_with_var
        (Scryer.Scc.setup_call_cleanup (.throws "goal") (.throws "cl")).outcome
      = (.solution, some "goal") := by
  exact ⟨rfl, rfl, rfl, rfl, rfl⟩

end Scryer
